import Mathlib

/-! # gobank: the authorization gate and the transfer operation

A shallow embedding of `api.go`: the JWT gate (`withJWTAuth`,
`accountNumberCheckCallback`, `validateJWT`, `createJWT`) and the transfer
handler (`handleTransfer`), over an explicit ledger state.

Conventions of the embedding.

* Go `int` and `int64` are both 64-bit here, so the conversions `int(x)` and
  `int64(x)` between them are the identity; they are written `toInt` and
  `toInt64` where the source writes them.
* A Go `error` is its message (`String`); a `(T, error)` result is
  `Except String T`.
* The handlers work on a `World`: the store behind `s.store` and the responses
  written so far to the `http.ResponseWriter`.
* A Go panic is the `Except.error` of a `HandlerFunc`.
* A token string carries its claims as written (JSON numbers as decimals);
  `jwt.Parse` decodes every number to the nearest `float64`, and the callback
  converts that back with `int64(...)`.
-/

deriving instance DecidableEq for Except

namespace Gobank

/-! ## Data model -/

/-- Modelled from the spec: the `Account` record of section 3 (its Go declaration
is not among the sources). `&Account{}` is `default`: every field zero. -/
structure Account where
  ID : Int
  FirstName : String
  LastName : String
  Number : Int
  EncryptedPassword : String
  Balance : Int
  CreatedAt : Int
deriving DecidableEq, Inhabited

/-- Modelled from the spec: the `TransferRequest` body of section 6,
`{fromAccountNumber, toAccountNumber, amount}`, three signed integers (its Go
declaration is not among the sources; section 9 records that the amount may be
non-positive). -/
structure TransferRequest where
  FromAccountNumber : Int
  ToAccountNumber : Int
  Amount : Int
deriving DecidableEq, Inhabited

/-- The conversion `int(x)`. -/
def toInt (x : Int) : Int := x

/-- The conversion `int64(x)` of an integer. -/
def toInt64 (x : Int) : Int := x

/-! ## The ledger store -/

/-- Modelled from the spec: the state behind the `Storage` interface (the
`LedgerStore` of sections 2 and 6, whose implementation is not among the
sources). `accounts` are the rows; `commitFails` says that the backend refuses
to commit (the storage failure of section 4.3); `sendMoneyCalls` records every
invocation of `SendMoney`, in order, with its arguments. -/
structure Store where
  accounts : List Account
  commitFails : Bool
  sendMoneyCalls : List (Int × Int × Int)
deriving DecidableEq

/-- Modelled from the spec: `GetAccountByID(id) -> Account|NotFound`
(section 6). -/
def GetAccountByID (s : Store) (id : Int) : Except String Account :=
  match s.accounts.find? (fun a => a.ID == id) with
  | some a => .ok a
  | none => .error "account not found"

/-- Modelled from the spec: `GetAccountByNumber(number) -> Account|NotFound`
(section 6). -/
def GetAccountByNumber (s : Store) (number : Int) : Except String Account :=
  match s.accounts.find? (fun a => a.Number == number) with
  | some a => .ok a
  | none => .error "account not found"

/-- Modelled from the spec: one balance change of `SendMoney`. Adds `delta` to
the balance of the account that `number` resolves to (the first row with that
number; account numbers are unique by section 3). -/
def adjustBalance (number delta : Int) : List Account → List Account
  | [] => []
  | a :: rest =>
    if a.Number == number then { a with Balance := a.Balance + delta } :: rest
    else a :: adjustBalance number delta rest

/-- Modelled from the spec: `SendMoney(from, to, amount) -> ok|Error`
(sections 4.3 and 6): one atomic mutation that decrements the source account's
balance by `amount` and increments the destination account's balance by
`amount`; on a storage failure neither change is committed. -/
def SendMoney (s : Store) (fromAccount toAccount amount : Int) : Except String Unit × Store :=
  let s1 := { s with sendMoneyCalls := s.sendMoneyCalls ++ [(fromAccount, toAccount, amount)] }
  if s.commitFails then (.error "storage failure", s1)
  else
    (.ok (), { s1 with
      accounts := adjustBalance toAccount amount (adjustBalance fromAccount (-amount) s1.accounts) })

/-- The balance of the account that `number` resolves to, if any. -/
def balanceOf (s : Store) (number : Int) : Option Int :=
  match GetAccountByNumber s number with
  | .ok a => some a.Balance
  | .error _ => none

/-! ## Requests and responses -/

/-- The values `WriteJSON` encodes. -/
inductive Payload where
  | apiError (Error : String)
  | account (a : Account)
  | transferResponse (Message : String)
deriving DecidableEq

/-- One response written by `WriteJSON`: the status and the encoded value. -/
structure Response where
  status : Nat
  body : Payload
deriving DecidableEq

/-- A finite `float64`: the value `mant * 2 ^ exp`. The JSON decoder yields the
normal form, `2 ^ 52 ≤ |mant| < 2 ^ 53` (or `exp = -1074` below that, or zero). -/
structure Float64 where
  mant : Int
  exp : Int
deriving DecidableEq, Inhabited

/-- A number as written in JSON text: the decimal `mantissa * 10 ^ exp10`. -/
structure JSONNumber where
  mantissa : Int
  exp10 : Int
deriving DecidableEq

/-- A value as written in the JSON text of a claims segment. -/
inductive JSONValue where
  | number (d : JSONNumber)
  | str (s : String)
  | bool (b : Bool)
  | null
  | other (raw : String)
deriving DecidableEq

/-- The claims segment of a token as written: its key/value pairs. -/
abbrev RawClaims := List (String × JSONValue)

/-- A value held in a claims map after JSON decoding: every number is a
`float64`. -/
inductive ClaimValue where
  | num (f : Float64)
  | str (s : String)
  | bool (b : Bool)
  | null
  | other (raw : String)
deriving DecidableEq

/-- The map `jwt.MapClaims`, as its key/value pairs. -/
abbrev MapClaims := List (String × ClaimValue)

/-- A signature segment, symbolically: either the HMAC of the signing input
(header algorithm and claims as written) under a key, or any other bytes. -/
inductive Signature where
  | hmac (alg : String) (key : String) (claims : RawClaims)
  | other (raw : String)
deriving DecidableEq

/-- A token string as it arrives in the `x-jwt-token` header: either not a
well-formed compact JWS (the empty string of a missing header included), or
its three segments: the header's algorithm, the claims as written, the
signature. -/
inductive TokenString where
  | malformed (raw : String)
  | compact (alg : String) (claims : RawClaims) (sig : Signature)
deriving DecidableEq

/-- The parsed token `*jwt.Token`. -/
structure Token where
  Method : String
  Claims : MapClaims
deriving DecidableEq

/-- The request `*http.Request`: method, the `id` path variable of
`mux.Vars`, the `x-jwt-token` header and the unread bytes of the body stream. -/
structure Request where
  Method : String
  id : String
  jwtToken : TokenString
  Body : List UInt8
deriving DecidableEq

/-- The state a handler works on: the store and the responses written. -/
structure World where
  store : Store
  written : List Response
deriving DecidableEq

/-- The process environment and clock: `JWT_SECRET` (empty when unset) and the
current Unix time in seconds. -/
structure Env where
  JWT_SECRET : String
  now : Int
deriving DecidableEq

/-- The function `http.HandlerFunc`; `Except.error` is a panic. -/
abbrev HandlerFunc := World → Request → Except String World

/-- The function type `apiFunc`: the returned error, if any, and the world. -/
abbrev ApiFunc := World → Request → Option String × World

/-- The JSON reader of `encoding/json` for a `TransferRequest`: the value
decoded from the front of the input and the bytes after it, or `none`. -/
abbrev JSONScanner := List UInt8 → Option (TransferRequest × List UInt8)

/-- JSON whitespace: space, tab, line feed, carriage return. -/
def isJSONSpace (b : UInt8) : Bool :=
  b == 32 || b == 9 || b == 10 || b == 13

/-- The call `json.NewDecoder(r.Body).Decode(&v)`: the next value of the stream. -/
def jsonDecode (scan : JSONScanner) (body : List UInt8) : Except String TransferRequest :=
  match scan body with
  | some (t, _) => .ok t
  | none => .error "invalid JSON"

/-- The call `json.Unmarshal(data, &v)`: the whole input is one value, with
nothing but whitespace after it. -/
def jsonUnmarshal (scan : JSONScanner) (data : List UInt8) : Except String TransferRequest :=
  match scan data with
  | some (t, rest) => if rest.all isJSONSpace then .ok t else .error "invalid JSON"
  | none => .error "invalid JSON"

/-- The function `WriteJSON`. -/
def WriteJSON (w : World) (status : Nat) (v : Payload) : World :=
  { w with written := w.written ++ [⟨status, v⟩] }

/-- The message of the transfer response,
`"Successfully transferred %d units to account %d"`. -/
def transferMessage (amount toAccount : Int) : String :=
  "Successfully transferred " ++ toString amount ++ " units to account " ++ toString toAccount

/-! ## The transfer handler -/

/-- The method `handleTransfer`. The deferred `r.Body.Close()` has no effect on
the world and is left out. -/
def handleTransfer (scan : JSONScanner) : ApiFunc := fun w r =>
  match jsonDecode scan r.Body with
  | .error err => (some err, w)
  | .ok transferReq =>
    match GetAccountByNumber w.store (toInt transferReq.FromAccountNumber) with
    | .error err => (some err, w)
    | .ok accFrom =>
      if accFrom.Balance < toInt64 transferReq.Amount then
        (some "the account balance is not enough", w)
      else
        match GetAccountByNumber w.store (toInt transferReq.ToAccountNumber) with
        | .error err => (some err, w)
        | .ok _ =>
          match SendMoney w.store transferReq.FromAccountNumber transferReq.ToAccountNumber
              transferReq.Amount with
          | (.error err, store1) => (some err, { w with store := store1 })
          | (.ok _, store1) =>
            (none, WriteJSON { w with store := store1 } 200
              (.transferResponse (transferMessage transferReq.Amount transferReq.ToAccountNumber)))

/-- The function `makeHttpHandleFunc`. -/
def makeHttpHandleFunc (f : ApiFunc) : HandlerFunc := fun w r =>
  match f w r with
  | (some err, w1) => .ok (WriteJSON w1 400 (.apiError err))
  | (none, w1) => .ok w1

/-! ## Tokens -/

/-- The signing methods registered with the JWT library. -/
def registeredMethods : List String :=
  ["HS256", "HS384", "HS512", "RS256", "RS384", "RS512", "ES256", "ES384", "ES512",
   "PS256", "PS384", "PS512", "EdDSA", "none"]

/-- The test `token.Method.(*jwt.SigningMethodHMAC)`. -/
def isSigningMethodHMAC (alg : String) : Bool :=
  alg == "HS256" || alg == "HS384" || alg == "HS512"

/-- The value of a `float64` cut towards zero, as the conversion to an integer
cuts it. -/
def Float64.trunc (f : Float64) : Int :=
  if 0 ≤ f.exp then f.mant * 2 ^ f.exp.toNat else Int.tdiv f.mant (2 ^ (-f.exp).toNat)

/-- The value of a `float64` cut down to a whole number. -/
def Float64.floor (f : Float64) : Int :=
  if 0 ≤ f.exp then f.mant * 2 ^ f.exp.toNat else f.mant / 2 ^ (-f.exp).toNat

/-- The number of binary digits of `n`, with `fuel` halvings allowed. -/
def bitLengthAux : Nat → Nat → Nat
  | 0, _ => 0
  | fuel + 1, n => if n = 0 then 0 else bitLengthAux fuel (n / 2) + 1

/-- The number of binary digits of `n`: zero for zero. -/
def bitLength (n : Nat) : Nat := bitLengthAux n n

/-- The quotient `num / den` rounded to the nearest whole number, a tie going to
the even one. -/
def roundHalfEven (num den : Nat) : Nat :=
  let q := num / den
  let r := num % den
  if 2 * r < den then q
  else if den < 2 * r then q + 1
  else if q % 2 = 0 then q else q + 1

/-- The library decoding of a JSON number into a `float64` (`strconv.ParseFloat`):
the nearest value with a 53-bit mantissa, a tie going to the even mantissa;
`none` when the number is out of the `float64` range. With `n / den` the
magnitude, `e` is the position of its leading bit and `k` the exponent of the
last mantissa bit. -/
def float64OfDecimal (d : JSONNumber) : Option Float64 :=
  let n := d.mantissa.natAbs * 10 ^ d.exp10.toNat
  let den := 10 ^ (-d.exp10).toNat
  if n = 0 then some ⟨0, 0⟩
  else
    let e0 : Int := (bitLength n : Int) - (bitLength den : Int)
    let e : Int := if den * 2 ^ e0.toNat ≤ n * 2 ^ (-e0).toNat then e0 else e0 - 1
    let k : Int := max (e - 52) (-1074)
    let q := roundHalfEven (n * 2 ^ (-k).toNat) (den * 2 ^ k.toNat)
    let q1 : Nat := if q = 2 ^ 53 then 2 ^ 52 else q
    let k1 : Int := if q = 2 ^ 53 then k + 1 else k
    if 971 < k1 then none
    else some ⟨if d.mantissa < 0 then -(q1 : Int) else (q1 : Int), k1⟩

/-- The library decoding of one claim value. -/
def decodeValue : JSONValue → Option ClaimValue
  | .number d =>
    match float64OfDecimal d with
    | some f => some (.num f)
    | none => none
  | .str s => some (.str s)
  | .bool b => some (.bool b)
  | .null => some .null
  | .other raw => some (.other raw)

/-- The library decoding of the claims segment into a `jwt.MapClaims`; it fails
when a number does not decode. -/
def decodeClaims : RawClaims → Option MapClaims
  | [] => some []
  | (key, v) :: rest =>
    match decodeValue v, decodeClaims rest with
    | some c, some cs => some ((key, c) :: cs)
    | _, _ => none

/-- The library check `MapClaims.Valid`: of the claims only the registered
`exp`, `iat` and `nbf` are looked at, each only when present, and compared in
whole seconds; a zero counts as absent and a value that is not a number
fails. -/
def claimsValid (now : Int) (claims : MapClaims) : Bool :=
  (match claims.lookup "exp" with
    | none => true
    | some (.num v) => v.mant == 0 || decide (now < v.floor)
    | some _ => false) &&
  (match claims.lookup "iat" with
    | none => true
    | some (.num v) => v.mant == 0 || decide (v.floor ≤ now)
    | some _ => false) &&
  (match claims.lookup "nbf" with
    | none => true
    | some (.num v) => v.mant == 0 || decide (v.floor ≤ now)
    | some _ => false)

/-- The library check of an HMAC signature: the signature segment is the HMAC of
the signing input under the key. -/
def verifySignature (alg key : String) (claims : RawClaims) (sig : Signature) : Bool :=
  isSigningMethodHMAC alg && sig == .hmac alg key claims

/-- The library call `jwt.Parse(tokenString, keyFunc)`: split the token and
decode its claims (numbers as `float64`), look up its signing method, ask
`keyFunc` for the key, validate the claims, verify the signature over the
segments as written. -/
def jwtParse (now : Int) (tokenString : TokenString)
    (keyFunc : Token → Except String String) : Except String Token :=
  match tokenString with
  | .malformed _ => .error "token is malformed"
  | .compact alg raw sig =>
    match decodeClaims raw with
    | none => .error "token is malformed"
    | some claims =>
      if registeredMethods.contains alg then
        match keyFunc ⟨alg, claims⟩ with
        | .error err => .error err
        | .ok key =>
          if claimsValid now claims then
            if verifySignature alg key raw sig then .ok ⟨alg, claims⟩
            else .error "signature is invalid"
          else .error "token claims are invalid"
      else .error "signing method (alg) is unavailable"

/-- The function `validateJWT`. -/
def validateJWT (env : Env) (toketString : TokenString) : Except String Token :=
  let secret := env.JWT_SECRET
  jwtParse env.now toketString (fun token =>
    if isSigningMethodHMAC token.Method then .ok secret
    else .error ("Unexpected signing method: " ++ token.Method))

/-- The value an `int64` field holds: the integer taken into the 64-bit range
(itself when it is in the range). -/
def int64Value (x : Int) : Int :=
  (x + 9223372036854775808) % 18446744073709551616 - 9223372036854775808

/-- The function `createJWT`: the claims, written as JSON integers (`acc.Number`
is an `int64`), are signed with HS256 under the configured secret;
`SignedString` does not fail on a byte-slice key. -/
def createJWT (env : Env) (acc : Account) : Except String TokenString :=
  let claim : RawClaims :=
    [("accountNumber", .number ⟨int64Value acc.Number, 0⟩), ("expiresAt", .number ⟨15000, 0⟩)]
  let secret := env.JWT_SECRET
  .ok (.compact "HS256" claim (.hmac "HS256" secret claim))

/-! ## The authorization gate -/

/-- The library call `strconv.Atoi`: an optional sign, then one or more decimal
digits, the value within the 64-bit range. -/
def strconvAtoi (s : String) : Except String Int :=
  let cs := s.toList
  let neg := cs.head? == some '-'
  let ds := if cs.head? == some '-' || cs.head? == some '+' then cs.tail else cs
  if ds.isEmpty || !ds.all Char.isDigit then .error "invalid syntax"
  else
    let n : Int := ds.foldl (fun acc c => acc * 10 + ((c.toNat : Int) - 48)) 0
    let v := if neg then -n else n
    if -9223372036854775808 ≤ v ∧ v ≤ 9223372036854775807 then .ok v
    else .error "value out of range"

/-- The function `getID`. -/
def getID (r : Request) : Except String Int :=
  let idStr := r.id
  match strconvAtoi idStr with
  | .error _ => .error ("invalid id given " ++ idStr)
  | .ok id => .ok id

/-- The function `permissionDenied`. -/
def permissionDenied (w : World) : World :=
  WriteJSON w 403 (.apiError "permission denied")

/-- The conversion `int64(f)` of a `float64`: the value cut towards zero when
that fits, the minimum otherwise (what amd64 yields). -/
def float64ToInt64 (f : Float64) : Int :=
  if -9223372036854775808 ≤ f.trunc ∧ f.trunc ≤ 9223372036854775807 then f.trunc
  else -9223372036854775808

/-- What a call of an `AuthCallback` comes to: it returns (an error or nil, and
the request as the callback left it), or it panics. -/
inductive CallbackOutcome where
  | returned (err : Option String) (r : Request)
  | panicked (msg : String)
deriving DecidableEq

/-- The function type `AuthCallback`. -/
abbrev AuthCallback := Request → Token → CallbackOutcome

/-- The last part of the callback of `accountNumberCheckCallback`: the claims
check and the replacement of the body. -/
def checkClaims (account : Account) (requestBodyBytes : List UInt8) (r : Request)
    (token : Token) : CallbackOutcome :=
  let claims := token.Claims
  match claims.lookup "accountNumber" with
  | some (.num f) =>
    if account.Number != float64ToInt64 f then
      .returned (some "account number mismatch") r
    else
      .returned none { r with Body := requestBodyBytes }
  | _ => .panicked "interface conversion: interface is not float64"

/-- The function `accountNumberCheckCallback`. `io.ReadAll` takes every unread
byte of the body and leaves the stream empty (reading the in-memory stream does
not fail); the two method tests run one after the other, as in the source. -/
def accountNumberCheckCallback (scan : JSONScanner) (s : Store) : AuthCallback := fun r0 token =>
  let account : Account := default
  let requestBodyBytes := r0.Body
  let r : Request := { r0 with Body := [] }
  let afterGet : Except String Account :=
    if r.Method == "GET" then
      match getID r with
      | .error err => .error err
      | .ok userID =>
        match GetAccountByID s userID with
        | .error err => .error err
        | .ok found => .ok found
    else .ok account
  match afterGet with
  | .error err => .returned (some err) r
  | .ok account =>
    let afterPost : Except String Account :=
      if r.Method == "POST" then
        match jsonUnmarshal scan requestBodyBytes with
        | .error err => .error err
        | .ok transfer => .ok { account with Number := toInt64 transfer.FromAccountNumber }
      else .ok account
    match afterPost with
    | .error err => .returned (some err) r
    | .ok account => checkClaims account requestBodyBytes r token

/-- The function `withJWTAuth`. The callback works on the store of the world at
the time of the request (`s.store`); the line printed to standard output is
left out. -/
def withJWTAuth (env : Env) (handleFunc : HandlerFunc)
    (callback : Option (Store → AuthCallback)) : HandlerFunc := fun w r =>
  let tokenString := r.jwtToken
  match validateJWT env tokenString with
  | .error _ => .ok (permissionDenied w)
  | .ok token =>
    match callback with
    | some cb =>
      match cb w.store r token with
      | .panicked msg => .error msg
      | .returned (some _) _ => .ok (permissionDenied w)
      | .returned none r1 => handleFunc w r1
    | none => handleFunc w r

/-- The method `handleGetAccountByID`. -/
def handleGetAccountByID : ApiFunc := fun w r =>
  match getID r with
  | .error err => (some err, w)
  | .ok id =>
    match GetAccountByID w.store id with
    | .error err => (some err, w)
    | .ok account => (none, WriteJSON w 200 (.account account))

/-- The gated route `GET /account/{id}` of `Run`. -/
def routeGetAccountByID (env : Env) (scan : JSONScanner) : HandlerFunc :=
  withJWTAuth env (makeHttpHandleFunc handleGetAccountByID)
    (some (accountNumberCheckCallback scan))

/-- The gated route `POST /transfer` of `Run`. -/
def routeTransfer (env : Env) (scan : JSONScanner) : HandlerFunc :=
  withJWTAuth env (makeHttpHandleFunc (handleTransfer scan))
    (some (accountNumberCheckCallback scan))

/-! ## The steps of a transfer, for interleaved runs -/

/-- Where a run of `handleTransfer` stands: before each of its four store
steps, or finished with the error it returned (`none` for success). -/
inductive TransferPC where
  | sourceLookup
  | balanceCheck
  | destinationLookup
  | sendMoney
  | finished (err : Option String)
deriving DecidableEq

/-- One run of `handleTransfer` on a decoded request: the program point and the
local `accFrom`. -/
structure TransferRun where
  transferReq : TransferRequest
  pc : TransferPC
  accFrom : Account
deriving DecidableEq

/-- A run about to start. -/
def TransferRun.start (t : TransferRequest) : TransferRun :=
  ⟨t, .sourceLookup, default⟩

/-- One step of a run of `handleTransfer` against the shared store: the source
lookup, the balance check, the destination lookup, or `SendMoney`. -/
def transferStep (store : Store) (run : TransferRun) : Store × TransferRun :=
  match run.pc with
  | .sourceLookup =>
    match GetAccountByNumber store (toInt run.transferReq.FromAccountNumber) with
    | .error err => (store, { run with pc := .finished (some err) })
    | .ok accFrom => (store, { run with pc := .balanceCheck, accFrom := accFrom })
  | .balanceCheck =>
    if run.accFrom.Balance < toInt64 run.transferReq.Amount then
      (store, { run with pc := .finished (some "the account balance is not enough") })
    else (store, { run with pc := .destinationLookup })
  | .destinationLookup =>
    match GetAccountByNumber store (toInt run.transferReq.ToAccountNumber) with
    | .error err => (store, { run with pc := .finished (some err) })
    | .ok _ => (store, { run with pc := .sendMoney })
  | .sendMoney =>
    match SendMoney store run.transferReq.FromAccountNumber run.transferReq.ToAccountNumber
        run.transferReq.Amount with
    | (.error err, store1) => (store1, { run with pc := .finished (some err) })
    | (.ok _, store1) => (store1, { run with pc := .finished none })
  | .finished _ => (store, run)

/-- Two runs of `handleTransfer` over one store. -/
structure TwoRuns where
  store : Store
  first : TransferRun
  second : TransferRun
deriving DecidableEq

/-- Runs a schedule: at each entry the first run (`false`) or the second
(`true`) takes its next step. -/
def runSchedule : List Bool → TwoRuns → TwoRuns
  | [], c => c
  | false :: rest, c =>
    let (store1, run1) := transferStep c.store c.first
    runSchedule rest { c with store := store1, first := run1 }
  | true :: rest, c =>
    let (store1, run1) := transferStep c.store c.second
    runSchedule rest { c with store := store1, second := run1 }

/-- Every list of `k` booleans. -/
def boolLists : Nat → List (List Bool)
  | 0 => [[]]
  | k + 1 => (boolLists k).map (fun l => false :: l) ++ (boolLists k).map (fun l => true :: l)

/-- Every way to interleave `m` steps of the first run with `n` of the second:
the schedules of length `m + n` that name the first run `m` times. -/
def interleavings (m n : Nat) : List (List Bool) :=
  (boolLists (m + n)).filter (fun l => l.count false == m)

/-- A sequence of transfer requests served one after the other. -/
def serveTransfers (scan : JSONScanner) : List Request → World → World
  | [], w => w
  | r :: rest, w => serveTransfers scan rest (handleTransfer scan w r).2

/-- Every account balance of the store is at least zero. -/
def balancesNonNegative (s : Store) : Prop :=
  ∀ a ∈ s.accounts, 0 ≤ a.Balance

instance (s : Store) : Decidable (balancesNonNegative s) := by
  unfold balancesNonNegative
  infer_instance

/-! ## The scenario of section 8 -/

/-- An account with the given id, number and balance. -/
def mkAccount (id number balance : Int) : Account :=
  ⟨id, "", "", number, "", balance, 0⟩

/-- The ledger of the concrete scenario: account 101 with balance 500 and
account 202 with balance 100. -/
def scenarioStore : Store :=
  ⟨[mkAccount 1 101 500, mkAccount 2 202 100], false, []⟩

/-- The scenario ledger with nothing written yet. -/
def scenarioWorld : World := ⟨scenarioStore, []⟩

/-- The bytes of an ASCII text. -/
def asciiBytes (text : String) : List UInt8 :=
  text.toList.map (fun c => c.toNat.toUInt8)

/-- The JSON text of a transfer request, as a client writes it. -/
def transferJSON (t : TransferRequest) : String :=
  "\x7b\"fromAccountNumber\":" ++ toString t.FromAccountNumber ++
    ",\"toAccountNumber\":" ++ toString t.ToAccountNumber ++
    ",\"amount\":" ++ toString t.Amount ++ "\x7d"

/-- A scanner for the scenario: it reads the JSON text of the transfer `t` as
`t`, with nothing left over, and reads nothing else. -/
def readsAs (t : TransferRequest) : JSONScanner := fun data =>
  if data = asciiBytes (transferJSON t) then some (t, []) else none

/-- The header value of a request without a token: the empty string. -/
def noToken : TokenString := .malformed ""

/-- A `POST /transfer` request carrying the token `tok` and the JSON text of
the transfer `t` as its body. -/
def transferPost (tok : TokenString) (t : TransferRequest) : Request :=
  ⟨"POST", "", tok, asciiBytes (transferJSON t)⟩

/-- The environment of the scenario: a configured secret and a clock. -/
def scenarioEnv : Env := ⟨"mysecret", 1700000000⟩

/-- The claims `createJWT` writes for the account numbered `number`. -/
def claimsFor (number : Int) : RawClaims :=
  [("accountNumber", .number ⟨number, 0⟩), ("expiresAt", .number ⟨15000, 0⟩)]

/-- The token `createJWT` issues under `scenarioEnv` for the account numbered
`number`. -/
def tokenFor (number : Int) : TokenString :=
  .compact "HS256" (claimsFor number) (.hmac "HS256" "mysecret" (claimsFor number))

/-- The parsed token that `jwt.Parse` hands back for `tokenFor number`. -/
def parsedTokenFor (number : Int) : Token :=
  ⟨"HS256", (decodeClaims (claimsFor number)).getD []⟩

/-- A token signed with the scenario's secret whose claims have no
`accountNumber`. -/
def tokenWithoutAccountNumber : TokenString :=
  .compact "HS256" [("expiresAt", .number ⟨15000, 0⟩)]
    (.hmac "HS256" "mysecret" [("expiresAt", .number ⟨15000, 0⟩)])

/-- The ledger of the rounding scenario: account 9007199254740993 (2^53 + 1) with
balance 500, account 9007199254740992 (2^53) with balance 500, and account 202
with balance 100. -/
def largeNumberWorld : World :=
  ⟨⟨[mkAccount 1 9007199254740993 500, mkAccount 2 9007199254740992 500,
      mkAccount 3 202 100], false, []⟩, []⟩

/-- A `GET /account/{id}` request carrying the token `tok`. -/
def accountGet (id : String) (tok : TokenString) : Request := ⟨"GET", id, tok, []⟩

/-- The two requests of the concurrency scenario, about to start: each for 300
from account 101 (balance 500) to account 202. -/
def scenarioRace : TwoRuns :=
  ⟨scenarioStore, TransferRun.start ⟨101, 202, 300⟩, TransferRun.start ⟨101, 202, 300⟩⟩

/-- The run returned nil. -/
def TransferRun.succeeded (run : TransferRun) : Prop :=
  run.pc = .finished none

/-- The run returned the insufficient-funds error. -/
def TransferRun.insufficientFunds (run : TransferRun) : Prop :=
  run.pc = .finished (some "the account balance is not enough")

instance (run : TransferRun) : Decidable run.succeeded := by
  unfold TransferRun.succeeded
  infer_instance

instance (run : TransferRun) : Decidable run.insufficientFunds := by
  unfold TransferRun.insufficientFunds
  infer_instance

/-- Exactly one of the two runs succeeded and the other was rejected for
insufficient funds; the source account 101 is left at 200. -/
def oneSuccessOneRejection (c : TwoRuns) : Prop :=
  ((c.first.succeeded ∧ c.second.insufficientFunds) ∨
    (c.first.insufficientFunds ∧ c.second.succeeded)) ∧
  balanceOf c.store 101 = some 200

/-- Both runs succeeded; the source account 101 is left at -100. -/
def bothSucceed (c : TwoRuns) : Prop :=
  c.first.succeeded ∧ c.second.succeeded ∧ balanceOf c.store 101 = some (-100)

instance (c : TwoRuns) : Decidable (oneSuccessOneRejection c) := by
  unfold oneSuccessOneRejection
  infer_instance

instance (c : TwoRuns) : Decidable (bothSucceed c) := by
  unfold bothSucceed
  infer_instance

/-- A schedule in which one run takes all its four steps before the other
takes any. -/
def serialSchedule (sched : List Bool) : Prop :=
  sched = [false, false, false, false, true, true, true, true] ∨
    sched = [true, true, true, true, false, false, false, false]

instance (sched : List Bool) : Decidable (serialSchedule sched) := by
  unfold serialSchedule
  infer_instance

/-! ## Lemmas on the ledger -/

theorem adjustBalance_hit (m d : Int) (a : Account) (rest : List Account)
    (h : a.Number = m) :
    adjustBalance m d (a :: rest) = { a with Balance := a.Balance + d } :: rest := by
  have hb : (a.Number == m) = true := by simpa using h
  rw [adjustBalance, if_pos hb]

theorem adjustBalance_miss (m d : Int) (a : Account) (rest : List Account)
    (h : a.Number ≠ m) :
    adjustBalance m d (a :: rest) = a :: adjustBalance m d rest := by
  have hb : ¬ (a.Number == m) = true := by simpa using h
  rw [adjustBalance, if_neg hb]

theorem find_adjustBalance_ne (n m d : Int) (h : n ≠ m) (l : List Account) :
    (adjustBalance m d l).find? (fun a => a.Number == n) = l.find? (fun a => a.Number == n) := by
  induction l with
  | nil => rfl
  | cons a rest ih =>
    by_cases hm : a.Number = m
    · have hn : a.Number ≠ n := fun e => h (e ▸ hm)
      rw [adjustBalance_hit m d a rest hm, List.find?_cons_of_neg, List.find?_cons_of_neg]
      · simpa using hn
      · simpa using hn
    · rw [adjustBalance_miss m d a rest hm]
      by_cases hn : a.Number = n
      · rw [List.find?_cons_of_pos, List.find?_cons_of_pos]
        · simpa using hn
        · simpa using hn
      · rw [List.find?_cons_of_neg, List.find?_cons_of_neg, ih]
        · simpa using hn
        · simpa using hn

theorem find_adjustBalance_eq (m d : Int) (l : List Account) :
    (adjustBalance m d l).find? (fun a => a.Number == m) =
      (l.find? (fun a => a.Number == m)).map (fun a => { a with Balance := a.Balance + d }) := by
  induction l with
  | nil => rfl
  | cons a rest ih =>
    by_cases hm : a.Number = m
    · rw [adjustBalance_hit m d a rest hm, List.find?_cons_of_pos, List.find?_cons_of_pos]
      · rfl
      · simpa using hm
      · simpa using hm
    · rw [adjustBalance_miss m d a rest hm, List.find?_cons_of_neg, List.find?_cons_of_neg, ih]
      · simpa using hm
      · simpa using hm

theorem mem_adjustBalance (m d : Int) (l : List Account) (b : Account)
    (hb : b ∈ adjustBalance m d l) :
    b ∈ l ∨ ∃ a, l.find? (fun a => a.Number == m) = some a ∧
      b = { a with Balance := a.Balance + d } := by
  induction l with
  | nil => simp [adjustBalance] at hb
  | cons a rest ih =>
    by_cases hm : a.Number = m
    · rw [adjustBalance_hit m d a rest hm, List.mem_cons] at hb
      rcases hb with hb | hb
      · right
        refine ⟨a, ?_, hb⟩
        rw [List.find?_cons_of_pos]
        simpa using hm
      · left
        exact List.mem_cons_of_mem _ hb
    · rw [adjustBalance_miss m d a rest hm, List.mem_cons] at hb
      rcases hb with hb | hb
      · left
        rw [hb]
        exact List.mem_cons_self _ _
      · rcases ih hb with h1 | ⟨c, hc, hbc⟩
        · left
          exact List.mem_cons_of_mem _ h1
        · right
          refine ⟨c, ?_, hbc⟩
          rw [List.find?_cons_of_neg, hc]
          simpa using hm

/-! ## Lemmas on the transfer handler -/

/-- What a successful call of `handleTransfer` went through. -/
theorem handleTransfer_success (scan : JSONScanner) (w : World) (r : Request)
    (t : TransferRequest) (hdec : jsonDecode scan r.Body = .ok t)
    (hok : (handleTransfer scan w r).1 = none) :
    ∃ accFrom accTo,
      GetAccountByNumber w.store t.FromAccountNumber = .ok accFrom ∧
      t.Amount ≤ accFrom.Balance ∧
      GetAccountByNumber w.store t.ToAccountNumber = .ok accTo ∧
      w.store.commitFails = false ∧
      (handleTransfer scan w r).2.store.accounts =
        adjustBalance t.ToAccountNumber t.Amount
          (adjustBalance t.FromAccountNumber (-t.Amount) w.store.accounts) ∧
      (handleTransfer scan w r).2.store.sendMoneyCalls =
        w.store.sendMoneyCalls ++ [(t.FromAccountNumber, t.ToAccountNumber, t.Amount)] := by
  unfold handleTransfer at hok ⊢
  simp only [hdec, toInt, toInt64] at hok ⊢
  cases hf : GetAccountByNumber w.store t.FromAccountNumber with
  | error e => simp [hf] at hok
  | ok accFrom =>
    simp only [hf] at hok ⊢
    by_cases hlt : accFrom.Balance < t.Amount
    · simp [hlt] at hok
    · simp only [hlt, if_false] at hok ⊢
      cases hto : GetAccountByNumber w.store t.ToAccountNumber with
      | error e => simp [hto] at hok
      | ok accTo =>
        simp only [hto] at hok ⊢
        cases hc : w.store.commitFails with
        | true => simp [SendMoney, hc] at hok
        | false =>
          refine ⟨accFrom, accTo, rfl, not_lt.mp hlt, rfl, rfl, ?_, ?_⟩ <;>
            simp [SendMoney, hc, WriteJSON]

/-- A call of `handleTransfer` that returns an error leaves the accounts as
they were. -/
theorem handleTransfer_error_accounts (scan : JSONScanner) (w : World) (r : Request)
    (err : String) (herr : (handleTransfer scan w r).1 = some err) :
    (handleTransfer scan w r).2.store.accounts = w.store.accounts ∧
      (handleTransfer scan w r).2.written = w.written := by
  unfold handleTransfer at herr ⊢
  cases hdec : jsonDecode scan r.Body with
  | error e => simp
  | ok t =>
    simp only [toInt, toInt64] at herr ⊢
    cases hf : GetAccountByNumber w.store t.FromAccountNumber with
    | error e => simp
    | ok accFrom =>
      simp only [hdec, hf] at herr ⊢
      by_cases hlt : accFrom.Balance < t.Amount
      · simp [hlt]
      · simp only [hlt, if_false] at herr ⊢
        cases hto : GetAccountByNumber w.store t.ToAccountNumber with
        | error e => simp
        | ok accTo =>
          simp only [hto] at herr ⊢
          cases hc : w.store.commitFails with
          | true => simp [SendMoney, hc]
          | false => simp [SendMoney, hc] at herr

theorem GetAccountByNumber_ok_iff (s : Store) (n : Int) (a : Account) :
    GetAccountByNumber s n = .ok a ↔ s.accounts.find? (fun a => a.Number == n) = some a := by
  unfold GetAccountByNumber
  cases h : s.accounts.find? (fun a => a.Number == n) <;> simp

theorem balanceOf_eq (s : Store) (n : Int) :
    balanceOf s n = (s.accounts.find? (fun a => a.Number == n)).map (fun a => a.Balance) := by
  unfold balanceOf GetAccountByNumber
  cases h : s.accounts.find? (fun a => a.Number == n) <;> simp

/-- One call of `handleTransfer` with a non-negative amount keeps every balance
at least zero. -/
theorem handleTransfer_nonneg (scan : JSONScanner) (w : World) (r : Request)
    (h0 : balancesNonNegative w.store)
    (hamt : ∀ t, jsonDecode scan r.Body = .ok t → 0 ≤ t.Amount) :
    balancesNonNegative (handleTransfer scan w r).2.store := by
  cases hres : (handleTransfer scan w r).1 with
  | some err =>
    intro a ha
    rw [(handleTransfer_error_accounts scan w r err hres).1] at ha
    exact h0 a ha
  | none =>
    cases hdec : jsonDecode scan r.Body with
    | error e => simp [handleTransfer, hdec] at hres
    | ok t =>
      obtain ⟨accFrom, accTo, hf, hle, -, -, hacc, -⟩ := handleTransfer_success scan w r t hdec hres
      have hpos := hamt t hdec
      have h1 : ∀ c ∈ adjustBalance t.FromAccountNumber (-t.Amount) w.store.accounts,
          0 ≤ c.Balance := by
        intro c hc
        rcases mem_adjustBalance _ _ _ c hc with hc | ⟨a, ha, hca⟩
        · exact h0 c hc
        · have : a = accFrom := by
            have := (GetAccountByNumber_ok_iff w.store _ accFrom).mp hf
            rw [ha] at this
            exact Option.some.inj this
          subst this
          rw [hca]
          show 0 ≤ a.Balance + -t.Amount
          linarith
      intro b hb
      rw [hacc] at hb
      rcases mem_adjustBalance _ _ _ b hb with hb | ⟨a, ha, hba⟩
      · exact h1 b hb
      · have := h1 a (List.mem_of_find?_eq_some ha)
        rw [hba]
        show 0 ≤ a.Balance + t.Amount
        linarith

/-- The scenario scanner decodes only its own transfer. -/
theorem readsAs_decode (t t1 : TransferRequest) (data : List UInt8)
    (h : jsonDecode (readsAs t) data = .ok t1) : t1 = t := by
  unfold jsonDecode readsAs at h
  by_cases hd : data = asciiBytes (transferJSON t)
  · simp [hd] at h
    exact h.symm
  · simp [hd] at h

/-! ## The transfer operation: claims C1, C2, C3 -/

/-- C1: when a precondition of `handleTransfer` fails (the source account does
not resolve, the amount exceeds the source balance, or the destination does not
resolve), the call returns an error, `SendMoney` is not invoked, and the world
is as before: every balance equals its balance before. -/
theorem handleTransfer_rejects (scan : JSONScanner) (w : World) (r : Request)
    (t : TransferRequest) (hdec : jsonDecode scan r.Body = .ok t)
    (hpre : (∀ a, GetAccountByNumber w.store t.FromAccountNumber ≠ .ok a) ∨
      (∃ a, GetAccountByNumber w.store t.FromAccountNumber = .ok a ∧ a.Balance < t.Amount) ∨
      (∀ a, GetAccountByNumber w.store t.ToAccountNumber ≠ .ok a)) :
    (∃ err, (handleTransfer scan w r).1 = some err) ∧
      (handleTransfer scan w r).2 = w ∧
      (handleTransfer scan w r).2.store.sendMoneyCalls = w.store.sendMoneyCalls ∧
      ∀ n, balanceOf (handleTransfer scan w r).2.store n = balanceOf w.store n := by
  have key : (∃ err, (handleTransfer scan w r).1 = some err) ∧ (handleTransfer scan w r).2 = w := by
    unfold handleTransfer
    simp only [hdec, toInt, toInt64]
    cases hf : GetAccountByNumber w.store t.FromAccountNumber with
    | error e => simp
    | ok accFrom =>
      by_cases hlt : accFrom.Balance < t.Amount
      · simp [hlt]
      · simp only [hlt, if_false]
        cases hto : GetAccountByNumber w.store t.ToAccountNumber with
        | error e => simp
        | ok accTo =>
          exfalso
          rcases hpre with h | ⟨a, ha, hl⟩ | h
          · exact h accFrom hf
          · rw [hf] at ha
            cases ha
            exact hlt hl
          · exact h accTo hto
  refine ⟨key.1, key.2, ?_, ?_⟩
  · rw [key.2]
  · intro n
    rw [key.2]

/-- Witness of C1: the scenario's repeated request, amount 400 against the
balance 300 left after the first transfer. -/
theorem handleTransfer_rejects_witness :
    (∃ err, (handleTransfer (readsAs ⟨101, 202, 400⟩)
        ⟨⟨[mkAccount 1 101 300, mkAccount 2 202 300], false, []⟩, []⟩
        (transferPost noToken ⟨101, 202, 400⟩)).1 = some err) ∧
      (handleTransfer (readsAs ⟨101, 202, 400⟩)
        ⟨⟨[mkAccount 1 101 300, mkAccount 2 202 300], false, []⟩, []⟩
        (transferPost noToken ⟨101, 202, 400⟩)).2 =
        ⟨⟨[mkAccount 1 101 300, mkAccount 2 202 300], false, []⟩, []⟩ :=
  have h := handleTransfer_rejects (readsAs ⟨101, 202, 400⟩)
    ⟨⟨[mkAccount 1 101 300, mkAccount 2 202 300], false, []⟩, []⟩
    (transferPost noToken ⟨101, 202, 400⟩) ⟨101, 202, 400⟩ (by decide)
    (Or.inr (Or.inl ⟨mkAccount 1 101 300, by decide, by decide⟩))
  ⟨h.1, h.2.1⟩

/-- C2 fails as stated: a transfer of 200 from account 101 to account 101 itself
succeeds, and the balance of 101 is 500 before and 500 after, not 500 - 200. -/
theorem self_transfer_keeps_balance :
    (handleTransfer (readsAs ⟨101, 101, 200⟩) scenarioWorld
        (transferPost noToken ⟨101, 101, 200⟩)).1 = none ∧
      balanceOf scenarioWorld.store 101 = some 500 ∧
      balanceOf (handleTransfer (readsAs ⟨101, 101, 200⟩) scenarioWorld
        (transferPost noToken ⟨101, 101, 200⟩)).2.store 101 = some 500 ∧
      balanceOf (handleTransfer (readsAs ⟨101, 101, 200⟩) scenarioWorld
        (transferPost noToken ⟨101, 101, 200⟩)).2.store 101 ≠ some (500 - 200) := by
  decide

/-- C2, amended: on a successful transfer of amount `a` from `X` to `Y`, if
`X ≠ Y` then the balance of `X` drops by `a`, the balance of `Y` rises by `a`,
their sum is conserved and every other account resolves as before; if `X = Y`
then every balance is as before. -/
theorem handleTransfer_conserves (scan : JSONScanner) (w : World) (r : Request)
    (t : TransferRequest) (hdec : jsonDecode scan r.Body = .ok t)
    (hok : (handleTransfer scan w r).1 = none) :
    (t.FromAccountNumber ≠ t.ToAccountNumber →
      ∃ bx by_, balanceOf w.store t.FromAccountNumber = some bx ∧
        balanceOf w.store t.ToAccountNumber = some by_ ∧
        balanceOf (handleTransfer scan w r).2.store t.FromAccountNumber = some (bx - t.Amount) ∧
        balanceOf (handleTransfer scan w r).2.store t.ToAccountNumber = some (by_ + t.Amount) ∧
        (bx - t.Amount) + (by_ + t.Amount) = bx + by_ ∧
        ∀ n, n ≠ t.FromAccountNumber → n ≠ t.ToAccountNumber →
          GetAccountByNumber (handleTransfer scan w r).2.store n = GetAccountByNumber w.store n) ∧
    (t.FromAccountNumber = t.ToAccountNumber →
      ∀ n, balanceOf (handleTransfer scan w r).2.store n = balanceOf w.store n) := by
  obtain ⟨accFrom, accTo, hf, -, hto, -, hacc, -⟩ := handleTransfer_success scan w r t hdec hok
  have hf2 := (GetAccountByNumber_ok_iff _ _ _).mp hf
  have hto2 := (GetAccountByNumber_ok_iff _ _ _).mp hto
  constructor
  · intro hne
    refine ⟨accFrom.Balance, accTo.Balance, ?_, ?_, ?_, ?_, by ring, ?_⟩
    · rw [balanceOf_eq, hf2]; rfl
    · rw [balanceOf_eq, hto2]; rfl
    · rw [balanceOf_eq, hacc, find_adjustBalance_ne _ _ _ hne, find_adjustBalance_eq, hf2]
      simp [sub_eq_add_neg]
    · rw [balanceOf_eq, hacc, find_adjustBalance_eq,
        find_adjustBalance_ne _ _ _ (Ne.symm hne), hto2]
      simp
    · intro n hx hy
      unfold GetAccountByNumber
      rw [hacc, find_adjustBalance_ne _ _ _ hy, find_adjustBalance_ne _ _ _ hx]
  · intro heq n
    rw [balanceOf_eq, balanceOf_eq, hacc, ← heq]
    by_cases hn : n = t.FromAccountNumber
    · subst hn
      rw [find_adjustBalance_eq, find_adjustBalance_eq]
      cases w.store.accounts.find? (fun a => a.Number == t.FromAccountNumber) <;> simp
    · rw [find_adjustBalance_ne _ _ _ hn, find_adjustBalance_ne _ _ _ hn]

/-- Witness of C2: the scenario's transfer of 200 from 101 to 202. -/
theorem handleTransfer_conserves_witness :
    balanceOf (handleTransfer (readsAs ⟨101, 202, 200⟩) scenarioWorld
        (transferPost noToken ⟨101, 202, 200⟩)).2.store 101 = some 300 ∧
      balanceOf (handleTransfer (readsAs ⟨101, 202, 200⟩) scenarioWorld
        (transferPost noToken ⟨101, 202, 200⟩)).2.store 202 = some 300 := by
  obtain ⟨bx, by_, h1, h2, h3, h4, -, -⟩ :=
    (handleTransfer_conserves (readsAs ⟨101, 202, 200⟩) scenarioWorld
      (transferPost noToken ⟨101, 202, 200⟩) ⟨101, 202, 200⟩ (by decide) (by decide)).1 (by decide)
  have e1 : bx = 500 := Option.some.inj (h1.symm.trans (by decide))
  have e2 : by_ = 100 := Option.some.inj (h2.symm.trans (by decide))
  subst e1 e2
  exact ⟨h3, h4⟩

/-- C3 fails as stated: from the scenario ledger, all balances at least zero, the
transfer of amount -200 from 101 to 202 passes the balance check (500 is not
below -200) and leaves account 202 at -100. -/
theorem negative_amount_overdraws :
    balancesNonNegative scenarioWorld.store ∧
      (handleTransfer (readsAs ⟨101, 202, -200⟩) scenarioWorld
        (transferPost noToken ⟨101, 202, -200⟩)).1 = none ∧
      balanceOf (serveTransfers (readsAs ⟨101, 202, -200⟩)
        [transferPost noToken ⟨101, 202, -200⟩] scenarioWorld).store 202 = some (-100) ∧
      ¬ balancesNonNegative (serveTransfers (readsAs ⟨101, 202, -200⟩)
        [transferPost noToken ⟨101, 202, -200⟩] scenarioWorld).store := by
  decide

/-- C3, amended: from a ledger in which every balance is at least zero, after
any finite sequence of `handleTransfer` calls whose amounts are at least zero
every balance is still at least zero. -/
theorem serveTransfers_nonneg (scan : JSONScanner) (reqs : List Request) (w : World)
    (h0 : balancesNonNegative w.store)
    (hamt : ∀ r ∈ reqs, ∀ t, jsonDecode scan r.Body = .ok t → 0 ≤ t.Amount) :
    balancesNonNegative (serveTransfers scan reqs w).store := by
  induction reqs generalizing w with
  | nil => exact h0
  | cons r rest ih =>
    apply ih
    · exact handleTransfer_nonneg scan w r h0 (hamt r (List.mem_cons_self _ _))
    · intro r1 hr1
      exact hamt r1 (List.mem_cons_of_mem _ hr1)

/-- Witness of C3: the scenario's two requests, 200 and then 200 again. -/
theorem serveTransfers_nonneg_witness :
    balancesNonNegative (serveTransfers (readsAs ⟨101, 202, 200⟩)
      [transferPost noToken ⟨101, 202, 200⟩,
        transferPost noToken ⟨101, 202, 200⟩] scenarioWorld).store :=
  serveTransfers_nonneg (readsAs ⟨101, 202, 200⟩)
    [transferPost noToken ⟨101, 202, 200⟩,
      transferPost noToken ⟨101, 202, 200⟩] scenarioWorld
    (by decide) (by
      intro r _ t ht
      rw [readsAs_decode _ _ _ ht]
      decide)

/-! ## Lemmas on the gate -/

/-- The callback on a `GET` request whose id resolves. -/
theorem callback_get (scan : JSONScanner) (s : Store) (r : Request) (token : Token)
    (id : Int) (B : Account) (hget : r.Method = "GET") (hid : getID r = .ok id)
    (hB : GetAccountByID s id = .ok B) :
    accountNumberCheckCallback scan s r token =
      checkClaims B r.Body { r with Body := [] } token := by
  have hid2 : getID { Method := "GET", id := r.id, jwtToken := r.jwtToken, Body := [] } =
      .ok id := hid
  simp [accountNumberCheckCallback, hget, hid2, hB]

/-- The callback on a `POST` request. -/
theorem callback_post (scan : JSONScanner) (s : Store) (r : Request) (token : Token)
    (hpost : r.Method = "POST") :
    accountNumberCheckCallback scan s r token =
      match jsonUnmarshal scan r.Body with
      | .error err => .returned (some err) { r with Body := [] }
      | .ok t =>
        checkClaims { (default : Account) with Number := t.FromAccountNumber } r.Body
          { r with Body := [] } token := by
  simp only [accountNumberCheckCallback, hpost, toInt64]
  cases jsonUnmarshal scan r.Body <;> simp

/-- When `checkClaims` returns nil, the request it hands on carries the bytes
that were read. -/
theorem checkClaims_allows (account : Account) (bytes : List UInt8) (r r1 : Request)
    (token : Token) (h : checkClaims account bytes r token = .returned none r1) :
    r1 = { r with Body := bytes } ∧
      ∃ f, token.Claims.lookup "accountNumber" = some (.num f) ∧
        account.Number = float64ToInt64 f := by
  unfold checkClaims at h
  simp only at h
  split at h
  · rename_i f hf
    by_cases hne : account.Number = float64ToInt64 f
    · simp [hne] at h
      exact ⟨h.symm, f, hf, hne⟩
    · simp [hne] at h
  · simp at h

/-- When the callback returns nil, the request it hands on is the request it
was given, body included. -/
theorem callback_allows (scan : JSONScanner) (s : Store) (r r1 : Request) (token : Token)
    (h : accountNumberCheckCallback scan s r token = .returned none r1) : r1 = r := by
  unfold accountNumberCheckCallback at h
  simp only at h
  split at h
  · simp at h
  · split at h
    · simp at h
    · exact (checkClaims_allows _ _ _ _ _ h).1

/-- An unmarshalled body decodes to the same value. -/
theorem jsonDecode_of_jsonUnmarshal (scan : JSONScanner) (data : List UInt8)
    (t : TransferRequest) (h : jsonUnmarshal scan data = .ok t) :
    jsonDecode scan data = .ok t := by
  unfold jsonUnmarshal at h
  unfold jsonDecode
  cases hs : scan data with
  | none => simp [hs] at h
  | some p =>
    obtain ⟨t1, rest⟩ := p
    simp only [hs] at h ⊢
    split at h
    · exact h
    · simp at h

/-- The calls of `SendMoney` after `handleTransfer`: those before, and at most
one more, with the arguments of the decoded request. -/
theorem handleTransfer_calls (scan : JSONScanner) (w : World) (r : Request)
    (t : TransferRequest) (hdec : jsonDecode scan r.Body = .ok t) :
    (handleTransfer scan w r).2.store.sendMoneyCalls = w.store.sendMoneyCalls ∨
      (handleTransfer scan w r).2.store.sendMoneyCalls =
        w.store.sendMoneyCalls ++ [(t.FromAccountNumber, t.ToAccountNumber, t.Amount)] := by
  unfold handleTransfer
  simp only [hdec, toInt, toInt64]
  cases hf : GetAccountByNumber w.store t.FromAccountNumber with
  | error e => simp
  | ok accFrom =>
    by_cases hlt : accFrom.Balance < t.Amount
    · simp [hlt]
    · simp only [hlt, if_false]
      cases hto : GetAccountByNumber w.store t.ToAccountNumber with
      | error e => simp
      | ok accTo =>
        right
        cases hc : w.store.commitFails <;> simp [SendMoney, hc, WriteJSON]

/-- Every denial of the gate that comes back as an error, from `validateJWT` or
from the callback, is the one response of `permissionDenied`, and the wrapped
handler is not called. -/
theorem withJWTAuth_denies (env : Env) (scan : JSONScanner) (w : World) (r : Request)
    (hdeny : (∃ err, validateJWT env r.jwtToken = .error err) ∨
      ∃ token err r1, validateJWT env r.jwtToken = .ok token ∧
        accountNumberCheckCallback scan w.store r token = .returned (some err) r1) :
    ∀ handleFunc : HandlerFunc,
      withJWTAuth env handleFunc (some (accountNumberCheckCallback scan)) w r =
        .ok ⟨w.store, w.written ++ [⟨403, .apiError "permission denied"⟩]⟩ := by
  intro handleFunc
  rcases hdeny with ⟨err, he⟩ | ⟨token, err, r1, hv, hc⟩
  · simp [withJWTAuth, he, permissionDenied, WriteJSON]
  · simp [withJWTAuth, hv, hc, permissionDenied, WriteJSON]

/-- When `checkClaims` panics, the claims hold no numeric `accountNumber`. -/
theorem checkClaims_panics (account : Account) (bytes : List UInt8) (r : Request)
    (token : Token) (msg : String) (h : checkClaims account bytes r token = .panicked msg) :
    msg = "interface conversion: interface is not float64" ∧
      ∀ f, token.Claims.lookup "accountNumber" ≠ some (.num f) := by
  unfold checkClaims at h
  simp only at h
  split at h
  · split at h <;> simp at h
  · rename_i hno
    simp at h
    exact ⟨h.symm, fun f hf => hno f hf⟩

/-- When the callback panics, the claims hold no numeric `accountNumber`. -/
theorem callback_panics (scan : JSONScanner) (s : Store) (r : Request) (token : Token)
    (msg : String) (h : accountNumberCheckCallback scan s r token = .panicked msg) :
    msg = "interface conversion: interface is not float64" ∧
      ∀ f, token.Claims.lookup "accountNumber" ≠ some (.num f) := by
  unfold accountNumberCheckCallback at h
  simp only at h
  split at h
  · simp at h
  · split at h
    · simp at h
    · exact checkClaims_panics _ _ _ _ _ h

/-- The three outcomes of the gate: the one permission-denied response, the
wrapped handler on the request as it arrived, or the panic of the callback on a
validated token without a numeric `accountNumber`. -/
theorem withJWTAuth_outcomes (env : Env) (scan : JSONScanner) (w : World) (r : Request)
    (handleFunc : HandlerFunc) :
    withJWTAuth env handleFunc (some (accountNumberCheckCallback scan)) w r =
        .ok (permissionDenied w) ∨
      withJWTAuth env handleFunc (some (accountNumberCheckCallback scan)) w r =
        handleFunc w r ∨
      ∃ token, validateJWT env r.jwtToken = .ok token ∧
        (∀ f, token.Claims.lookup "accountNumber" ≠ some (.num f)) ∧
        withJWTAuth env handleFunc (some (accountNumberCheckCallback scan)) w r =
          .error "interface conversion: interface is not float64" := by
  cases hv : validateJWT env r.jwtToken with
  | error e =>
    left
    simp [withJWTAuth, hv]
  | ok token =>
    cases hc : accountNumberCheckCallback scan w.store r token with
    | returned err r1 =>
      cases err with
      | none =>
        right
        left
        have := callback_allows scan w.store r r1 token hc
        subst this
        simp [withJWTAuth, hv, hc]
      | some e =>
        left
        simp [withJWTAuth, hv, hc]
    | panicked msg =>
      right
      right
      obtain ⟨hmsg, hno⟩ := callback_panics scan w.store r token msg hc
      exact ⟨token, rfl, hno, by simp [withJWTAuth, hv, hc, hmsg]⟩

/-! ## Lemmas on the decoding of numbers -/

theorem bitLengthAux_zero (fuel : Nat) : bitLengthAux fuel 0 = 0 := by
  cases fuel <;> simp [bitLengthAux]

theorem bitLengthAux_spec (fuel : Nat) : ∀ n, n ≤ fuel →
    n < 2 ^ bitLengthAux fuel n ∧ (n ≠ 0 → 2 ^ (bitLengthAux fuel n - 1) ≤ n) := by
  induction fuel with
  | zero =>
    intro n hn
    have : n = 0 := by omega
    subst this
    simp [bitLengthAux]
  | succ fuel ih =>
    intro n hn
    by_cases h0 : n = 0
    · subst h0
      simp [bitLengthAux]
    · have hhalf : n / 2 ≤ fuel := by omega
      obtain ⟨h1, h2⟩ := ih (n / 2) hhalf
      have hb : bitLengthAux (fuel + 1) n = bitLengthAux fuel (n / 2) + 1 := by
        simp [bitLengthAux, h0]
      rw [hb]
      constructor
      · rw [pow_succ]
        omega
      · intro _
        rw [Nat.add_sub_cancel]
        by_cases hz : n / 2 = 0
        · rw [hz, bitLengthAux_zero]
          simp
          omega
        · have h3 := h2 hz
          have hpos : 1 ≤ bitLengthAux fuel (n / 2) := by
            by_contra hc
            have : bitLengthAux fuel (n / 2) = 0 := by omega
            rw [this] at h1
            simp at h1
            exact hz h1
          have : 2 ^ bitLengthAux fuel (n / 2) = 2 * 2 ^ (bitLengthAux fuel (n / 2) - 1) := by
            rw [← pow_succ']
            congr 1
            omega
          omega

theorem lt_two_pow_bitLength (n : Nat) : n < 2 ^ bitLength n :=
  (bitLengthAux_spec n n (le_refl n)).1

theorem two_pow_bitLength_le (n : Nat) (h : n ≠ 0) : 2 ^ (bitLength n - 1) ≤ n :=
  (bitLengthAux_spec n n (le_refl n)).2 h

theorem bitLength_le (n b : Nat) (h : n < 2 ^ b) : bitLength n ≤ b := by
  by_cases h0 : n = 0
  · subst h0
    simp [bitLength, bitLengthAux]
  · have h1 := two_pow_bitLength_le n h0
    have h2 : 2 ^ (bitLength n - 1) < 2 ^ b := lt_of_le_of_lt h1 h
    have h3 := (Nat.pow_lt_pow_iff_right (by norm_num : 1 < 2)).mp h2
    omega

theorem bitLength_pos (n : Nat) (h : n ≠ 0) : 1 ≤ bitLength n := by
  by_contra hc
  have h0 : bitLength n = 0 := by omega
  have := lt_two_pow_bitLength n
  rw [h0] at this
  simp at this
  exact h this

theorem roundHalfEven_one (x : Nat) : roundHalfEven x 1 = x := by
  simp [roundHalfEven, Nat.mod_one]

/-- The shape of the decoded value of a non-zero integer of at most 53 bits. -/
theorem float64OfDecimal_small (n : Int) (h0 : n ≠ 0) (h : n.natAbs < 2 ^ 53) :
    float64OfDecimal ⟨n, 0⟩ =
      some ⟨(if n < 0 then -((n.natAbs * 2 ^ (53 - bitLength n.natAbs) : Nat) : Int)
              else ((n.natAbs * 2 ^ (53 - bitLength n.natAbs) : Nat) : Int)),
            (bitLength n.natAbs : Int) - 53⟩ := by
  have hN : n.natAbs ≠ 0 := by simpa using h0
  have hb1 := bitLength_pos _ hN
  have hb2 := bitLength_le _ 53 h
  have hlow := two_pow_bitLength_le _ hN
  have hhigh := lt_two_pow_bitLength n.natAbs
  have hbd : bitLength (1 : Nat) = 1 := by decide
  unfold float64OfDecimal
  simp only [Int.toNat_zero, pow_zero, mul_one, neg_zero, hN, if_false, hbd, one_mul]
  have he0 : (((bitLength n.natAbs : Int) - ((1 : Nat) : Int)).toNat) = bitLength n.natAbs - 1 := by
    omega
  have he0' : ((-((bitLength n.natAbs : Int) - ((1 : Nat) : Int))).toNat) = 0 := by omega
  rw [he0, he0']
  simp only [pow_zero, mul_one, hlow, if_true]
  have hk : max ((bitLength n.natAbs : Int) - ((1 : Nat) : Int) - 52) (-1074) =
      (bitLength n.natAbs : Int) - 53 := by omega
  rw [hk]
  have hk1 : ((bitLength n.natAbs : Int) - 53).toNat = 0 := by omega
  have hk2 : (-((bitLength n.natAbs : Int) - 53)).toNat = 53 - bitLength n.natAbs := by omega
  rw [hk1, hk2]
  simp only [pow_zero, mul_one, roundHalfEven_one]
  have hq : n.natAbs * 2 ^ (53 - bitLength n.natAbs) < 2 ^ 53 := by
    calc n.natAbs * 2 ^ (53 - bitLength n.natAbs)
        < 2 ^ bitLength n.natAbs * 2 ^ (53 - bitLength n.natAbs) :=
          Nat.mul_lt_mul_of_pos_right hhigh (by positivity)
      _ = 2 ^ 53 := by rw [← pow_add]; congr 1; omega
  have hq2 : ¬ n.natAbs * 2 ^ (53 - bitLength n.natAbs) = 2 ^ 53 := by omega
  simp only [hq2, if_false]
  have : ¬ (971 : Int) < (bitLength n.natAbs : Int) - 53 := by omega
  simp only [this, if_false]

/-- An integer of magnitude at most `2 ^ 53` written in a claim comes back from
the `float64` and the conversion of line 249 as itself. -/
theorem float64_exact (n : Int) (hlo : -9007199254740992 ≤ n) (hhi : n ≤ 9007199254740992)
    (f : Float64) (hf : float64OfDecimal ⟨n, 0⟩ = some f) : float64ToInt64 f = n := by
  by_cases h0 : n = 0
  · subst h0
    have : f = ⟨0, 0⟩ := by
      have h1 : float64OfDecimal ⟨0, 0⟩ = some ⟨0, 0⟩ := by decide
      rw [h1] at hf
      exact (Option.some.inj hf).symm
    subst this
    decide
  · by_cases hmax : n.natAbs = 2 ^ 53
    · have hn : n = 9007199254740992 ∨ n = -9007199254740992 := by omega
      rcases hn with hn | hn <;> subst hn
      · have h1 : float64OfDecimal ⟨9007199254740992, 0⟩ = some ⟨2 ^ 52, 1⟩ := by decide
        rw [h1] at hf
        rw [← Option.some.inj hf]
        decide
      · have h1 : float64OfDecimal ⟨-9007199254740992, 0⟩ = some ⟨-2 ^ 52, 1⟩ := by decide
        rw [h1] at hf
        rw [← Option.some.inj hf]
        decide
    · have hlt : n.natAbs < 2 ^ 53 := by omega
      have hN : n.natAbs ≠ 0 := by simpa using h0
      have hb1 := bitLength_pos _ hN
      have hb2 := bitLength_le _ 53 hlt
      rw [float64OfDecimal_small n h0 hlt] at hf
      have hf2 := (Option.some.inj hf).symm
      have htr : f.trunc = n := by
        rw [hf2]
        unfold Float64.trunc
        simp only
        by_cases hb : bitLength n.natAbs = 53
        · have he : (0 : Int) ≤ (bitLength n.natAbs : Int) - 53 := by omega
          have ht : ((bitLength n.natAbs : Int) - 53).toNat = 0 := by omega
          have h53 : 53 - bitLength n.natAbs = 0 := by omega
          simp only [he, if_true, ht, h53, pow_zero, mul_one]
          by_cases hneg : n < 0
          · simp only [hneg, if_true]
            omega
          · simp only [hneg, if_false]
            omega
        · have he : ¬ (0 : Int) ≤ (bitLength n.natAbs : Int) - 53 := by omega
          have hj : (-((bitLength n.natAbs : Int) - 53)).toNat = 53 - bitLength n.natAbs := by
            omega
          simp only [he, if_false, hj]
          have hpow : ((2 : Int) ^ (53 - bitLength n.natAbs)) ≠ 0 := by positivity
          by_cases hneg : n < 0
          · simp only [hneg, if_true, Nat.cast_mul, Nat.cast_pow, Nat.cast_ofNat]
            rw [← neg_mul, Int.mul_tdiv_cancel _ hpow]
            omega
          · simp only [hneg, if_false, Nat.cast_mul, Nat.cast_pow, Nat.cast_ofNat]
            rw [Int.mul_tdiv_cancel _ hpow]
            omega
      unfold float64ToInt64
      rw [htr]
      have : -9223372036854775808 ≤ n ∧ n ≤ 9223372036854775807 := by omega
      simp [this]

/-- Every 64-bit integer written in a claim decodes to some `float64`. -/
theorem float64_of_int64 (n : Int) (h : n.natAbs < 2 ^ 64) :
    ∃ f, float64OfDecimal ⟨n, 0⟩ = some f := by
  unfold float64OfDecimal
  simp only [Int.toNat_zero, pow_zero, mul_one, neg_zero, one_mul]
  by_cases hN : n.natAbs = 0
  · simp [hN]
  · simp only [hN, if_false]
    have hb := bitLength_le _ 64 h
    have hbd : bitLength (1 : Nat) = 1 := by decide
    have hk : ∀ k : Int, k = max ((if 2 ^ ((bitLength n.natAbs : Int) -
            ((bitLength 1 : Nat) : Int)).toNat ≤
          n.natAbs * 2 ^ (-((bitLength n.natAbs : Int) - ((bitLength 1 : Nat) : Int))).toNat
        then (bitLength n.natAbs : Int) - ((bitLength 1 : Nat) : Int)
        else (bitLength n.natAbs : Int) - ((bitLength 1 : Nat) : Int) - 1) - 52) (-1074) →
        k ≤ 11 := by
      intro k hk
      rw [hk]
      apply max_le
      · rw [hbd]
        split_ifs <;> omega
      · norm_num
    generalize hkdef : max ((if 2 ^ ((bitLength n.natAbs : Int) -
            ((bitLength 1 : Nat) : Int)).toNat ≤
          n.natAbs * 2 ^ (-((bitLength n.natAbs : Int) - ((bitLength 1 : Nat) : Int))).toNat
        then (bitLength n.natAbs : Int) - ((bitLength 1 : Nat) : Int)
        else (bitLength n.natAbs : Int) - ((bitLength 1 : Nat) : Int) - 1) - 52) (-1074) = k
    have hk11 := hk k hkdef.symm
    refine ⟨_, if_neg ?_⟩
    split_ifs <;> omega

theorem int64Value_bound (x : Int) : (int64Value x).natAbs < 2 ^ 64 := by
  unfold int64Value
  omega

/-- A key of the claims as written is a key of the decoded claims, with the
decoded value. -/
theorem decodeClaims_lookup (key : String) : ∀ (raw : RawClaims) (claims : MapClaims),
    decodeClaims raw = some claims →
    ∀ v, raw.lookup key = some v →
      ∃ c, decodeValue v = some c ∧ claims.lookup key = some c := by
  intro raw
  induction raw with
  | nil => intro claims _ v hv; simp at hv
  | cons p rest ih =>
    obtain ⟨k1, v1⟩ := p
    intro claims hdec v hv
    unfold decodeClaims at hdec
    cases hd1 : decodeValue v1 with
    | none => simp [hd1] at hdec
    | some c1 =>
      cases hd2 : decodeClaims rest with
      | none => simp [hd1, hd2] at hdec
      | some cs =>
        simp only [hd1, hd2] at hdec
        have hcl := (Option.some.inj hdec).symm
        subst hcl
        by_cases hk : key = k1
        · subst hk
          simp only [List.lookup_cons, beq_self_eq_true] at hv ⊢
          have := Option.some.inj hv
          subst this
          exact ⟨c1, hd1, rfl⟩
        · have hk2 : (key == k1) = false := by simpa using hk
          simp only [List.lookup_cons, hk2] at hv ⊢
          exact ih cs hd2 v hv

/-- The claims of a validated token are the decoded claims of the token string. -/
theorem validateJWT_claims (env : Env) (alg : String) (raw : RawClaims) (sig : Signature)
    (token : Token) (h : validateJWT env (.compact alg raw sig) = .ok token) :
    decodeClaims raw = some token.Claims := by
  unfold validateJWT jwtParse at h
  simp only at h
  cases hd : decodeClaims raw with
  | none => simp [hd] at h
  | some claims =>
    simp only [hd] at h
    by_cases h1 : registeredMethods.contains alg = true
    · rw [if_pos h1] at h
      by_cases h2 : isSigningMethodHMAC alg = true
      · simp only [h2, if_true] at h
        by_cases h3 : claimsValid env.now claims = true
        · rw [if_pos h3] at h
          by_cases h4 : verifySignature alg env.JWT_SECRET raw sig = true
          · rw [if_pos h4] at h
            cases h
            rfl
          · rw [if_neg h4] at h
            cases h
        · rw [if_neg h3] at h
          cases h
      · simp [h2] at h
    · rw [if_neg h1] at h
      cases h

/-- A validated token whose `accountNumber` is written as an integer of
magnitude at most `2 ^ 53` binds that integer at line 249. -/
theorem validated_accountNumber_exact (env : Env) (alg : String) (raw : RawClaims)
    (sig : Signature) (token : Token) (f : Float64) (n : Int)
    (hval : validateJWT env (.compact alg raw sig) = .ok token)
    (hclaim : token.Claims.lookup "accountNumber" = some (.num f))
    (hraw : raw.lookup "accountNumber" = some (.number ⟨n, 0⟩))
    (hlo : -9007199254740992 ≤ n) (hhi : n ≤ 9007199254740992) :
    float64ToInt64 f = n := by
  have hdec := validateJWT_claims env alg raw sig token hval
  obtain ⟨c, hc, hl⟩ := decodeClaims_lookup "accountNumber" raw token.Claims hdec _ hraw
  rw [hclaim] at hl
  have hcf : c = .num f := (Option.some.inj hl).symm
  subst hcf
  unfold decodeValue at hc
  cases hfd : float64OfDecimal ⟨n, 0⟩ with
  | none => simp [hfd] at hc
  | some f1 =>
    simp only [hfd] at hc
    have : f1 = f := by
      have := Option.some.inj hc
      cases this
      rfl
    subst this
    exact float64_exact n hlo hhi f1 hfd

/-- A signed `accountNumber` of 101.5 decodes to a `float64` that line 249 cuts
to 101: the gate lets such a token read account 101. -/
theorem fractional_accountNumber_is_cut :
    (float64OfDecimal ⟨1015, -1⟩).map float64ToInt64 = some 101 ∧
      routeGetAccountByID scenarioEnv (readsAs default) scenarioWorld
          (accountGet "1" (.compact "HS256" [("accountNumber", .number ⟨1015, -1⟩)]
            (.hmac "HS256" "mysecret" [("accountNumber", .number ⟨1015, -1⟩)]))) =
        .ok (WriteJSON scenarioWorld 200 (.account (mkAccount 1 101 500))) := by
  decide

/-! ## The gate: claims C4, C5, C7, C8 -/

/-- C4 fails as stated: the token `createJWT` issues for account
9007199254740993 (2^53 + 1) comes back from `jwt.Parse` with `accountNumber`
9007199254740992; on that account's own id the gate answers permission denied,
and on the id of account 9007199254740992 it lets the handler run. -/
theorem own_account_denied_above_two_pow_53 :
    createJWT scenarioEnv (mkAccount 1 9007199254740993 500) =
        .ok (tokenFor 9007199254740993) ∧
      GetAccountByID largeNumberWorld.store 1 = .ok (mkAccount 1 9007199254740993 500) ∧
      routeGetAccountByID scenarioEnv (readsAs default) largeNumberWorld
          (accountGet "1" (tokenFor 9007199254740993)) =
        .ok (permissionDenied largeNumberWorld) ∧
      routeGetAccountByID scenarioEnv (readsAs default) largeNumberWorld
          (accountGet "2" (tokenFor 9007199254740993)) =
        .ok (WriteJSON largeNumberWorld 200 (.account (mkAccount 2 9007199254740992 500))) := by
  decide

/-- C4, amended: on a `GET` read-by-id request whose path id resolves to account
`B`, with a valid token whose `accountNumber` claim is the `float64` `f`, the
gate compares `B.Number` with `A = int64(f)`: when `A ≠ B.Number` it answers
permission denied and does not call the wrapped handler; when `A = B.Number`
it calls the wrapped handler on the request, and the route answers 200 with
account `B`. When the token writes `accountNumber` as an integer `n` of
magnitude at most 2^53, `A` is `n`. -/
theorem read_gate_ownership (env : Env) (scan : JSONScanner) (w : World) (r : Request)
    (token : Token) (f : Float64) (id : Int) (B : Account)
    (hget : r.Method = "GET") (hid : getID r = .ok id)
    (hB : GetAccountByID w.store id = .ok B)
    (hval : validateJWT env r.jwtToken = .ok token)
    (hclaim : token.Claims.lookup "accountNumber" = some (.num f)) :
    (float64ToInt64 f ≠ B.Number →
      ∀ handleFunc : HandlerFunc,
        withJWTAuth env handleFunc (some (accountNumberCheckCallback scan)) w r =
          .ok (permissionDenied w)) ∧
    (float64ToInt64 f = B.Number →
      (∀ handleFunc : HandlerFunc,
        withJWTAuth env handleFunc (some (accountNumberCheckCallback scan)) w r =
          handleFunc w r) ∧
      routeGetAccountByID env scan w r = .ok (WriteJSON w 200 (.account B))) ∧
    (∀ alg raw sig n, r.jwtToken = .compact alg raw sig →
      raw.lookup "accountNumber" = some (.number ⟨n, 0⟩) →
      -9007199254740992 ≤ n → n ≤ 9007199254740992 → float64ToInt64 f = n) := by
  have hcb := callback_get scan w.store r token id B hget hid hB
  refine ⟨?_, ?_, ?_⟩
  · intro hne handleFunc
    have hne2 : ¬ B.Number = float64ToInt64 f := fun e => hne e.symm
    simp [withJWTAuth, hval, hcb, checkClaims, hclaim, hne2]
  · intro heq
    have hall : ∀ handleFunc : HandlerFunc,
        withJWTAuth env handleFunc (some (accountNumberCheckCallback scan)) w r =
          handleFunc w r := by
      intro handleFunc
      simp [withJWTAuth, hval, hcb, checkClaims, hclaim, heq]
    refine ⟨hall, ?_⟩
    rw [routeGetAccountByID, hall]
    simp [makeHttpHandleFunc, handleGetAccountByID, hid, hB]
  · intro alg raw sig n htok hraw hlo hhi
    rw [htok] at hval
    exact validated_accountNumber_exact env alg raw sig token f n hval hclaim hraw hlo hhi

/-- Witness of C4: the token of account 101 reading account id 1, which is
account 101. -/
theorem read_gate_ownership_witness :
    routeGetAccountByID scenarioEnv (readsAs default) scenarioWorld
        (accountGet "1" (tokenFor 101)) =
      .ok (WriteJSON scenarioWorld 200 (.account (mkAccount 1 101 500))) ∧
    float64ToInt64 ((float64OfDecimal ⟨101, 0⟩).getD default) = 101 :=
  have h := read_gate_ownership scenarioEnv (readsAs default) scenarioWorld
    (accountGet "1" (tokenFor 101)) (parsedTokenFor 101)
    ((float64OfDecimal ⟨101, 0⟩).getD default) 1
    (mkAccount 1 101 500) (by decide) (by decide) (by decide) (by decide) (by decide)
  ⟨(h.2.1 (by decide)).2,
    h.2.2 "HS256" (claimsFor 101) (.hmac "HS256" "mysecret" (claimsFor 101)) 101 rfl
      (by decide) (by decide) (by decide)⟩

/-- C5 fails as stated: with the token issued for account 9007199254740993
(2^53 + 1), a transfer whose `fromAccountNumber` is 9007199254740992, not the
token's account, is not rejected: `handleTransfer` runs and `SendMoney` is
called with source 9007199254740992. -/
theorem transfer_from_other_account_above_two_pow_53 :
    createJWT scenarioEnv (mkAccount 1 9007199254740993 500) =
        .ok (tokenFor 9007199254740993) ∧
      routeTransfer scenarioEnv (readsAs ⟨9007199254740992, 202, 200⟩) largeNumberWorld
          (transferPost (tokenFor 9007199254740993) ⟨9007199254740992, 202, 200⟩) ≠
        .ok (permissionDenied largeNumberWorld) ∧
      Except.map (fun w1 => w1.store.sendMoneyCalls)
          (routeTransfer scenarioEnv (readsAs ⟨9007199254740992, 202, 200⟩) largeNumberWorld
            (transferPost (tokenFor 9007199254740993) ⟨9007199254740992, 202, 200⟩)) =
        .ok [(9007199254740992, 202, 200)] ∧
      Except.map (fun w1 => balanceOf w1.store 9007199254740992)
          (routeTransfer scenarioEnv (readsAs ⟨9007199254740992, 202, 200⟩) largeNumberWorld
            (transferPost (tokenFor 9007199254740993) ⟨9007199254740992, 202, 200⟩)) =
        .ok (some 300) := by
  decide

/-- C5, amended: on a `POST` transfer request with a valid token whose
`accountNumber` claim is the `float64` `f`, with `A = int64(f)`: if the body's
`fromAccountNumber` is not `A` the gate answers permission denied and does not
call the wrapped handler, whatever `toAccountNumber` is; whatever the body, the
transfer route calls `SendMoney` at most once, and then with `A` as the source.
When the token writes `accountNumber` as an integer `n` of magnitude at most
2^53, `A` is `n`. -/
theorem transfer_gate_ownership (env : Env) (scan : JSONScanner) (w : World) (r : Request)
    (token : Token) (f : Float64)
    (hpost : r.Method = "POST")
    (hval : validateJWT env r.jwtToken = .ok token)
    (hclaim : token.Claims.lookup "accountNumber" = some (.num f)) :
    (∀ t, jsonUnmarshal scan r.Body = .ok t → t.FromAccountNumber ≠ float64ToInt64 f →
      ∀ handleFunc : HandlerFunc,
        withJWTAuth env handleFunc (some (accountNumberCheckCallback scan)) w r =
          .ok (permissionDenied w)) ∧
    (∀ w1, routeTransfer env scan w r = .ok w1 →
      w1.store.sendMoneyCalls = w.store.sendMoneyCalls ∨
      ∃ toAccount amount, w1.store.sendMoneyCalls =
        w.store.sendMoneyCalls ++ [(float64ToInt64 f, toAccount, amount)]) ∧
    (∀ alg raw sig n, r.jwtToken = .compact alg raw sig →
      raw.lookup "accountNumber" = some (.number ⟨n, 0⟩) →
      -9007199254740992 ≤ n → n ≤ 9007199254740992 → float64ToInt64 f = n) := by
  have hcb := callback_post scan w.store r token hpost
  refine ⟨?_, ?_, ?_⟩
  · intro t ht hne handleFunc
    rw [ht] at hcb
    simp [withJWTAuth, hval, hcb, checkClaims, hclaim, hne]
  · intro w1 hw1
    cases ht : jsonUnmarshal scan r.Body with
    | error e =>
      rw [ht] at hcb
      simp [routeTransfer, withJWTAuth, hval, hcb, permissionDenied, WriteJSON] at hw1
      left
      rw [← hw1]
    | ok t =>
      rw [ht] at hcb
      by_cases hne : t.FromAccountNumber = float64ToInt64 f
      · have hdec := jsonDecode_of_jsonUnmarshal scan r.Body t ht
        have hrun : routeTransfer env scan w r =
            makeHttpHandleFunc (handleTransfer scan) w r := by
          simp [routeTransfer, withJWTAuth, hval, hcb, checkClaims, hclaim, hne]
        rw [hrun] at hw1
        have hcalls := handleTransfer_calls scan w r t hdec
        unfold makeHttpHandleFunc at hw1
        cases hres : handleTransfer scan w r with
        | mk err w2 =>
          rw [hres] at hw1 hcalls
          have hw2 : w1.store = w2.store := by
            cases err with
            | none =>
              simp at hw1
              rw [← hw1]
            | some e =>
              simp [WriteJSON] at hw1
              rw [← hw1]
          rw [hw2]
          rcases hcalls with h | h
          · left
            exact h
          · right
            exact ⟨t.ToAccountNumber, t.Amount, by rw [h, hne]⟩
      · simp [routeTransfer, withJWTAuth, hval, hcb, checkClaims, hclaim, hne,
          permissionDenied, WriteJSON] at hw1
        left
        rw [← hw1]
  · intro alg raw sig n htok hraw hlo hhi
    rw [htok] at hval
    exact validated_accountNumber_exact env alg raw sig token f n hval hclaim hraw hlo hhi

/-- Witness of C5: the token of account 202 on a transfer from 101 to 202. -/
theorem transfer_gate_ownership_witness :
    routeTransfer scenarioEnv (readsAs ⟨101, 202, 200⟩) scenarioWorld
        (transferPost (tokenFor 202) ⟨101, 202, 200⟩) = .ok (permissionDenied scenarioWorld) ∧
    float64ToInt64 ((float64OfDecimal ⟨202, 0⟩).getD default) = 202 :=
  have h := transfer_gate_ownership scenarioEnv (readsAs ⟨101, 202, 200⟩) scenarioWorld
    (transferPost (tokenFor 202) ⟨101, 202, 200⟩) (parsedTokenFor 202)
    ((float64OfDecimal ⟨202, 0⟩).getD default) (by decide) (by decide) (by decide)
  ⟨h.1 ⟨101, 202, 200⟩ (by decide) (by decide) _,
    h.2.2 "HS256" (claimsFor 202) (.hmac "HS256" "mysecret" (claimsFor 202)) 202 rfl
      (by decide) (by decide) (by decide)⟩

/-- C7 fails on the code: a token signed with the configured secret whose claims
have no `accountNumber`, on a `GET` whose id resolves, passes `validateJWT` and
then the callback panics on its type assertion: no 403 response is written. -/
theorem gate_panics_without_accountNumber :
    validateJWT scenarioEnv tokenWithoutAccountNumber =
      .ok ⟨"HS256", [("expiresAt", .num ⟨15000 * 2 ^ 39, -39⟩)]⟩ ∧
    routeGetAccountByID scenarioEnv (readsAs default) scenarioWorld
        (accountGet "1" tokenWithoutAccountNumber) =
      .error "interface conversion: interface is not float64" ∧
    routeGetAccountByID scenarioEnv (readsAs default) scenarioWorld
        (accountGet "1" tokenWithoutAccountNumber) ≠
      .ok (permissionDenied scenarioWorld) := by
  decide

/-- C8: when the gate allows a request (the token validates and the callback
returns nil), the wrapped handler is called on a request whose body is the
unread stream of exactly the original bytes; on a `POST`, the body the gate
unmarshalled and the body the handler decodes give the same
`TransferRequest`. -/
theorem gate_replays_body (env : Env) (scan : JSONScanner) (w : World) (r r1 : Request)
    (token : Token) (handleFunc : HandlerFunc)
    (hval : validateJWT env r.jwtToken = .ok token)
    (hallow : accountNumberCheckCallback scan w.store r token = .returned none r1) :
    r1.Body = r.Body ∧
      withJWTAuth env handleFunc (some (accountNumberCheckCallback scan)) w r =
        handleFunc w r1 ∧
      (r.Method = "POST" →
        ∃ t, jsonUnmarshal scan r.Body = .ok t ∧ jsonDecode scan r1.Body = .ok t) := by
  have hr1 := callback_allows scan w.store r r1 token hallow
  refine ⟨by rw [hr1], ?_, ?_⟩
  · simp [withJWTAuth, hval, hallow]
  · intro hpost
    have hcb := callback_post scan w.store r token hpost
    rw [hallow] at hcb
    cases ht : jsonUnmarshal scan r.Body with
    | error e => simp [ht] at hcb
    | ok t => exact ⟨t, rfl, by rw [hr1]; exact jsonDecode_of_jsonUnmarshal scan r.Body t ht⟩

/-- Witness of C8: the token of account 101 on a transfer from 101. -/
theorem gate_replays_body_witness :
    (transferPost (tokenFor 101) ⟨101, 202, 200⟩).Body =
        asciiBytes (transferJSON ⟨101, 202, 200⟩) ∧
      withJWTAuth scenarioEnv (makeHttpHandleFunc (handleTransfer (readsAs ⟨101, 202, 200⟩)))
        (some (accountNumberCheckCallback (readsAs ⟨101, 202, 200⟩))) scenarioWorld
        (transferPost (tokenFor 101) ⟨101, 202, 200⟩) =
      makeHttpHandleFunc (handleTransfer (readsAs ⟨101, 202, 200⟩)) scenarioWorld
        (transferPost (tokenFor 101) ⟨101, 202, 200⟩) ∧
      ∃ t, jsonUnmarshal (readsAs ⟨101, 202, 200⟩)
          (transferPost (tokenFor 101) ⟨101, 202, 200⟩).Body = .ok t ∧
        jsonDecode (readsAs ⟨101, 202, 200⟩)
          (transferPost (tokenFor 101) ⟨101, 202, 200⟩).Body = .ok t :=
  have h := gate_replays_body scenarioEnv (readsAs ⟨101, 202, 200⟩) scenarioWorld
    (transferPost (tokenFor 101) ⟨101, 202, 200⟩)
    (transferPost (tokenFor 101) ⟨101, 202, 200⟩)
    (parsedTokenFor 101)
    (makeHttpHandleFunc (handleTransfer (readsAs ⟨101, 202, 200⟩))) (by decide) (by decide)
  ⟨h.1, h.2.1, h.2.2 (by decide)⟩

/-! ## Tokens: claims C9, C10 -/

/-- C9 fails as stated: the token `createJWT` issues for account 101 carries
`expiresAt` 15000, and at the later time 15001 `validateJWT` accepts it. -/
theorem token_accepted_after_expiresAt :
    createJWT ⟨"mysecret", 15001⟩ (mkAccount 1 101 500) = .ok (tokenFor 101) ∧
      (claimsFor 101).lookup "expiresAt" = some (.number ⟨15000, 0⟩) ∧
      (15000 : Int) < 15001 ∧
      validateJWT ⟨"mysecret", 15001⟩ (tokenFor 101) =
        .ok ⟨"HS256", [("accountNumber", .num ⟨101 * 2 ^ 46, -46⟩),
          ("expiresAt", .num ⟨15000 * 2 ^ 39, -39⟩)]⟩ := by
  decide

/-- C9, amended: a token issued by `createJWT` carries the constant `expiresAt`
15000, and `validateJWT` under the same secret accepts it at every current
time, before or after that value, handing back its decoded claims. -/
theorem validateJWT_accepts_issued (env : Env) (acc : Account) (now : Int) :
    ∃ raw claims,
      createJWT env acc = .ok (.compact "HS256" raw (.hmac "HS256" env.JWT_SECRET raw)) ∧
      raw = [("accountNumber", JSONValue.number ⟨int64Value acc.Number, 0⟩),
        ("expiresAt", JSONValue.number ⟨15000, 0⟩)] ∧
      decodeClaims raw = some claims ∧
      validateJWT ⟨env.JWT_SECRET, now⟩
          (.compact "HS256" raw (.hmac "HS256" env.JWT_SECRET raw)) =
        .ok ⟨"HS256", claims⟩ := by
  obtain ⟨f1, hf1⟩ := float64_of_int64 (int64Value acc.Number) (int64Value_bound acc.Number)
  have hf2 : float64OfDecimal ⟨15000, 0⟩ = some ⟨15000 * 2 ^ 39, -39⟩ := by decide
  have hdec : decodeClaims [("accountNumber", JSONValue.number ⟨int64Value acc.Number, 0⟩),
      ("expiresAt", JSONValue.number ⟨15000, 0⟩)] =
      some [("accountNumber", .num f1), ("expiresAt", .num ⟨15000 * 2 ^ 39, -39⟩)] := by
    simp [decodeClaims, decodeValue, hf1, hf2]
  refine ⟨_, _, rfl, rfl, hdec, ?_⟩
  simp [validateJWT, jwtParse, hdec, registeredMethods, isSigningMethodHMAC, claimsValid,
    verifySignature, List.lookup]

/-- C10 fails as stated: with `JWT_SECRET` unset, `createJWT` returns a token
for account 101, signed with the empty key, and no error. -/
theorem createJWT_signs_with_empty_secret :
    createJWT ⟨"", 1700000000⟩ (mkAccount 1 101 500) =
      .ok (.compact "HS256" (claimsFor 101) (.hmac "HS256" "" (claimsFor 101))) ∧
    ∀ err, createJWT ⟨"", 1700000000⟩ (mkAccount 1 101 500) ≠ .error err :=
  ⟨by decide, fun err h => by simp [createJWT] at h⟩

/-- C10, amended: `createJWT` never returns an error; when the configured secret
is the empty string it returns the token signed with the empty key, which
`validateJWT` accepts under that same empty secret. -/
theorem createJWT_total (env : Env) (acc : Account) (now : Int) :
    (∃ tok, createJWT env acc = .ok tok) ∧
      ∃ raw claims, createJWT ⟨"", now⟩ acc =
          .ok (.compact "HS256" raw (.hmac "HS256" "" raw)) ∧
        decodeClaims raw = some claims ∧
        validateJWT ⟨"", now⟩ (.compact "HS256" raw (.hmac "HS256" "" raw)) =
          .ok ⟨"HS256", claims⟩ := by
  obtain ⟨f1, hf1⟩ := float64_of_int64 (int64Value acc.Number) (int64Value_bound acc.Number)
  have hf2 : float64OfDecimal ⟨15000, 0⟩ = some ⟨15000 * 2 ^ 39, -39⟩ := by decide
  have hdec : decodeClaims [("accountNumber", JSONValue.number ⟨int64Value acc.Number, 0⟩),
      ("expiresAt", JSONValue.number ⟨15000, 0⟩)] =
      some [("accountNumber", .num f1), ("expiresAt", .num ⟨15000 * 2 ^ 39, -39⟩)] := by
    simp [decodeClaims, decodeValue, hf1, hf2]
  refine ⟨⟨_, rfl⟩, _, _, rfl, hdec, ?_⟩
  simp [validateJWT, jwtParse, hdec, registeredMethods, isSigningMethodHMAC, claimsValid,
    verifySignature, List.lookup]

/-! ## Interleaved transfers: claim C6 -/

/-- The four steps of one run, taken with nothing in between, are one call of
`handleTransfer`: same returned error, same store. -/
theorem steps_eq_handleTransfer (scan : JSONScanner) (w : World) (r : Request)
    (t : TransferRequest) (other : TransferRun) (hdec : jsonDecode scan r.Body = .ok t) :
    (runSchedule [false, false, false, false] ⟨w.store, TransferRun.start t, other⟩).first.pc =
        .finished (handleTransfer scan w r).1 ∧
      (runSchedule [false, false, false, false] ⟨w.store, TransferRun.start t, other⟩).store =
        (handleTransfer scan w r).2.store := by
  unfold handleTransfer
  simp only [hdec, toInt, toInt64, runSchedule, TransferRun.start, transferStep]
  cases hf : GetAccountByNumber w.store t.FromAccountNumber with
  | error e => simp [transferStep]
  | ok accFrom =>
    by_cases hlt : accFrom.Balance < t.Amount
    · simp [transferStep, hlt, toInt64]
    · simp only [transferStep, hlt, toInt64, toInt, if_false]
      cases hto : GetAccountByNumber w.store t.ToAccountNumber with
      | error e => simp [transferStep]
      | ok accTo =>
        cases hc : w.store.commitFails <;> simp [transferStep, SendMoney, hc, WriteJSON]

/-- C6 fails as stated: when the two runs take their steps in turn, both pass
the balance check against the balance 500, both call `SendMoney` and succeed,
and account 101 is left at -100. -/
theorem interleaved_transfers_overdraw :
    [false, true, false, true, false, true, false, true] ∈ interleavings 4 4 ∧
      bothSucceed (runSchedule [false, true, false, true, false, true, false, true]
        scenarioRace) ∧
      ¬ oneSuccessOneRejection (runSchedule [false, true, false, true, false, true, false, true]
        scenarioRace) := by
  decide

/-- C6, amended: for the two requests of 300 each from account 101 with balance
500, every interleaving of their steps ends either with exactly one success and
one insufficient-funds rejection (source at 200) or with both succeeding
(source at -100); when one run takes all its steps before the other, it is the
first of the two. -/
theorem interleaved_transfers_outcomes (sched : List Bool) (h : sched ∈ interleavings 4 4) :
    (oneSuccessOneRejection (runSchedule sched scenarioRace) ∨
        bothSucceed (runSchedule sched scenarioRace)) ∧
      (serialSchedule sched → oneSuccessOneRejection (runSchedule sched scenarioRace)) := by
  revert sched
  decide

/-- Witness of C6: the schedule in which the first run finishes before the
second starts. -/
theorem interleaved_transfers_outcomes_witness :
    oneSuccessOneRejection
      (runSchedule [false, false, false, false, true, true, true, true] scenarioRace) :=
  (interleaved_transfers_outcomes [false, false, false, false, true, true, true, true]
    (by decide)).2 (by decide)

end Gobank
